import Mathlib

/-!
# Verification of the RegulationCoder compliance core

Shallow embedding of the deterministic compliance-evaluation core of the
RegulationCoder repository:

* `ComplianceEngine._resolve_field` (src/regulationcoder/core/engine.py)
* `ComplianceEngine.evaluate` / `_evaluate_rule` (same file)
* `AuditLogger` append / load / verify_chain (src/regulationcoder/audit/logger.py)
* `AuditChainVerifier.verify` (src/regulationcoder/audit/chain.py)

Python values are modelled by the inductive `PyVal`; machine floats of the
score computation are modelled by exact rationals together with Python's
round-half-to-even at one decimal; the SHA-256 digest is modelled by an
abstract function `H : String → String` (tamper-detection statements assume
injectivity of `H`, which concrete witnesses instantiate with `id`).
-/

namespace RegCoder

/-- A Python value as it appears in a `model_dump()`-style nested mapping:
`None`, booleans, strings, integers, lists and string-keyed dicts.
Dicts are association lists with the first binding of a key authoritative
(Python dicts have unique keys, so lookup order is irrelevant there). -/
inductive PyVal where
  | none : PyVal
  | bool : Bool → PyVal
  | str : String → PyVal
  | int : Int → PyVal
  | list : List PyVal → PyVal
  | dict : List (String × PyVal) → PyVal

/-- `d.get(k)` on a Python dict: the stored value, or `None` when the key
is absent. -/
def dictGet (kvs : List (String × PyVal)) (k : String) : PyVal :=
  match kvs.lookup k with
  | some v => v
  | Option.none => PyVal.none

/-- Is this value Python's `None`? -/
def PyVal.isNoneV : PyVal → Bool
  | PyVal.none => true
  | _ => false

/-- `str.split(sep)` for a one-character separator, on the character list.
Mirrors Python: the empty string splits to `[""]`, and separators at the
ends or adjacent to each other produce empty segments. -/
def splitOnChar (c : Char) : List Char → List (List Char)
  | [] => [[]]
  | x :: xs =>
    let r := splitOnChar c xs
    if x = c then [] :: r
    else
      match r with
      | [] => [[x]]
      | h :: t => (x :: h) :: t

/-- `field_path.split(".")`. -/
def splitDot (s : String) : List String :=
  (splitOnChar '.' s.data).map (fun cs => String.mk cs)

/-- The conventional leading segment stripped by `_resolve_field`. -/
def nsMarker : String := "system_profile."

/-- Does the path start with `"system_profile."`? -/
def hasNsMarker (s : String) : Bool :=
  nsMarker.data.isPrefixOf s.data

/-- `field_path[len("system_profile."):] if field_path.startswith(...)`. -/
def stripNs (s : String) : String :=
  if hasNsMarker s then String.mk (s.data.drop nsMarker.data.length) else s

/-- The traversal loop of `_resolve_field`: walk the path segments; a
non-dict current value, an absent key, or a stored `None` short-circuits
to `None`. -/
def walkPath : PyVal → List String → PyVal
  | cur, [] => cur
  | cur, p :: rest =>
    match cur with
    | PyVal.dict kvs =>
      let nxt := dictGet kvs p
      if nxt.isNoneV then PyVal.none else walkPath nxt rest
    | _ => PyVal.none

/-- `ComplianceEngine._resolve_field(data, field_path)`
(src/regulationcoder/core/engine.py, lines 220-236). -/
def resolveField (data : PyVal) (fieldPath : String) : PyVal :=
  walkPath data (splitDot (stripNs fieldPath))

/-- One step of the traversal from an arbitrary current value: the dict
lookup when `cur` is a dict, and `None` otherwise.  `stepGet cur k = None`
captures exactly the three short-circuit conditions of the source: `cur`
not a mapping, key absent, or stored value `None`. -/
def stepGet (cur : PyVal) (k : String) : PyVal :=
  match cur with
  | PyVal.dict kvs => dictGet kvs k
  | _ => PyVal.none

/-! ## Rule / report data model (src/regulationcoder/models) -/

/-- `RuleType` (models/rule.py): automation level of a rule. -/
inductive RuleType where
  | automated
  | semiAutomated
  | manual
  deriving DecidableEq, Repr

/-- `Severity` (models/rule.py). -/
inductive Severity where
  | critical
  | high
  | medium
  | low
  | info
  deriving DecidableEq, Repr

/-- `Severity.value`: the string value of the Python `str`-enum member. -/
def Severity.value : Severity → String
  | .critical => "critical"
  | .high => "high"
  | .medium => "medium"
  | .low => "low"
  | .info => "info"

/-- `RuleVerdict` (models/evaluation.py). -/
inductive RuleVerdict where
  | pass
  | fail
  | notApplicable
  | manualReview
  deriving DecidableEq, Repr

/-- `Citation` (models/citation.py); only the fields the engine reads. -/
structure Citation where
  clauseId : String
  articleRef : String
  exactQuote : String
  deriving DecidableEq, Repr

/-- `Rule` (models/rule.py).  The `evaluation_logic` pseudocode string and
test cases are carried but never interpreted here (the fallback `exec` path
is absorbed into the execution oracle, see `evaluateRule`). -/
structure Rule where
  id : String
  requirementId : String
  ruleType : RuleType
  title : String
  description : String
  inputsNeeded : List String
  evaluationLogic : String
  severity : Severity
  remediation : String
  citations : List Citation
  deriving DecidableEq, Repr

/-- `RuleResult` (models/evaluation.py). -/
structure RuleResult where
  ruleId : String
  requirementId : String
  title : String
  verdict : RuleVerdict
  severity : String
  details : String
  remediation : String
  articleRef : String
  citations : List Citation
  deriving DecidableEq, Repr

/-- `ComplianceGap` (models/evaluation.py). -/
structure ComplianceGap where
  ruleId : String
  requirementId : String
  description : String
  severity : String
  remediation : String
  articleRef : String
  citations : List Citation
  deriving DecidableEq, Repr

/-- `EvaluationResult` (models/evaluation.py): summary statistics.  The
Python float `compliance_score` is modelled as an exact rational. -/
structure EvaluationResult where
  totalRules : Nat
  passed : Nat
  failed : Nat
  notApplicable : Nat
  manualReview : Nat
  complianceScore : ℚ
  deriving DecidableEq, Repr

/-- `ComplianceReport` (models/evaluation.py): the fields `evaluate`
populates.  The evaluation timestamp is carried as an opaque string. -/
structure ComplianceReport where
  id : String
  regulationId : String
  systemName : String
  providerName : String
  evaluationDate : String
  summary : EvaluationResult
  ruleResults : List RuleResult
  criticalGaps : List ComplianceGap
  highGaps : List ComplianceGap
  mediumGaps : List ComplianceGap
  overallVerdict : String
  deriving DecidableEq, Repr

/-! ## Score arithmetic

Python's `round(x, 1)` rounds half to even.  The score expressions
`passed / applicable * 100` are exact rationals here; the binary-float
detour of CPython introduces no difference at the integer thresholds the
verdict derivation compares against. -/

/-- Round a rational to the nearest integer, ties to even
(Python's `round` on a number ending in `.5`). -/
def roundHalfEven (q : ℚ) : ℤ :=
  let f : ℤ := ⌊q⌋
  if q - (f : ℚ) < 1/2 then f
  else if q - (f : ℚ) > 1/2 then f + 1
  else if f % 2 = 0 then f else f + 1

/-- `round(x, 1)`: one decimal digit, ties to even. -/
def round1 (q : ℚ) : ℚ := (roundHalfEven (q * 10) : ℚ) / 10

/-- Round-half-even of `N / D` computed purely with natural-number
division, used to evaluate concrete scores. -/
def natRoundHalfEven (N D : ℕ) : ℕ :=
  if 2 * (N % D) < D then N / D
  else if D < 2 * (N % D) then N / D + 1
  else if (N / D) % 2 = 0 then N / D else N / D + 1

/-- The compliance score in tenths of a point, as a natural number. -/
def scoreTenths (passed failed : ℕ) : ℕ :=
  if passed + failed = 0 then 0
  else natRoundHalfEven (1000 * passed) (passed + failed)

/-- `score = round((passed / applicable * 100) if applicable > 0 else 0, 1)`
(engine.py, line 104). -/
def complianceScoreOf (passed failed : ℕ) : ℚ :=
  round1 (if passed + failed > 0
          then (passed : ℚ) / ((passed + failed : ℕ) : ℚ) * 100 else 0)

theorem roundHalfEven_natCast_div (N D : ℕ) (hD : 0 < D) :
    roundHalfEven ((N : ℚ) / (D : ℚ)) = (natRoundHalfEven N D : ℤ) := by
  have hD' : (0 : ℚ) < (D : ℚ) := by exact_mod_cast hD
  have hfl : ⌊(N : ℚ) / (D : ℚ)⌋ = ((N / D : ℕ) : ℤ) :=
    Rat.floor_natCast_div_natCast N D
  have hkey : (N : ℚ) = (D : ℚ) * ((N / D : ℕ) : ℚ) + ((N % D : ℕ) : ℚ) := by
    exact_mod_cast (Nat.div_add_mod N D).symm
  have hfrac : (N : ℚ) / (D : ℚ) - ((N / D : ℕ) : ℚ)
      = ((N % D : ℕ) : ℚ) / (D : ℚ) := by
    field_simp
    linarith [hkey]
  have hlt : ((N % D : ℕ) : ℚ) / (D : ℚ) < 1 / 2 ↔ 2 * (N % D) < D := by
    rw [div_lt_div_iff₀ hD' (by norm_num : (0 : ℚ) < 2)]
    constructor
    · intro h
      have : (N % D) * 2 < 1 * D := by exact_mod_cast h
      omega
    · intro h
      have : (N % D) * 2 < 1 * D := by omega
      exact_mod_cast this
  have hgt : 1 / 2 < ((N % D : ℕ) : ℚ) / (D : ℚ) ↔ D < 2 * (N % D) := by
    rw [div_lt_div_iff₀ (by norm_num : (0 : ℚ) < 2) hD']
    constructor
    · intro h
      have : 1 * D < (N % D) * 2 := by exact_mod_cast h
      omega
    · intro h
      have : 1 * D < (N % D) * 2 := by omega
      exact_mod_cast this
  have hpar : (((N / D : ℕ) : ℤ) % 2 = 0) ↔ ((N / D) % 2 = 0) := by
    constructor
    · intro h
      have : ((N / D) % 2 : ℤ) = ((0 : ℕ) : ℤ) := by push_cast; omega
      exact_mod_cast this
    · intro h
      have : ((N / D) % 2 : ℤ) = ((0 : ℕ) : ℤ) := by exact_mod_cast h
      push_cast at this
      omega
  simp only [roundHalfEven, hfl, Int.cast_natCast]
  rw [hfrac]
  by_cases h1 : 2 * (N % D) < D
  · rw [if_pos (hlt.mpr h1)]
    simp only [natRoundHalfEven]
    rw [if_pos h1]
  · rw [if_neg (by rw [hlt]; exact h1)]
    by_cases h2 : D < 2 * (N % D)
    · rw [if_pos (by rw [gt_iff_lt, hgt]; exact h2)]
      simp only [natRoundHalfEven]
      rw [if_neg h1, if_pos h2, Nat.cast_add, Nat.cast_one]
    · rw [if_neg (by rw [gt_iff_lt, hgt]; exact h2)]
      by_cases h3 : (N / D) % 2 = 0
      · rw [if_pos (hpar.mpr h3)]
        simp only [natRoundHalfEven]
        rw [if_neg h1, if_neg h2, if_pos h3]
      · rw [if_neg (by rw [hpar]; exact h3)]
        simp only [natRoundHalfEven]
        rw [if_neg h1, if_neg h2, if_neg h3, Nat.cast_add, Nat.cast_one]

theorem complianceScoreOf_eq (p f : ℕ) :
    complianceScoreOf p f = (scoreTenths p f : ℚ) / 10 := by
  by_cases h : p + f = 0
  · have : ¬ (p + f > 0) := by omega
    simp only [complianceScoreOf, scoreTenths, if_pos h, if_neg this, round1,
      roundHalfEven]
    norm_num
  · have hpos : p + f > 0 := by omega
    have hq : ((p : ℚ) / ((p + f : ℕ) : ℚ) * 100) * 10
        = ((1000 * p : ℕ) : ℚ) / ((p + f : ℕ) : ℚ) := by
      have hne : ((p + f : ℕ) : ℚ) ≠ 0 := by
        exact_mod_cast h
      field_simp
      ring
    simp only [complianceScoreOf, scoreTenths, if_pos hpos, if_neg h, round1, hq]
    rw [roundHalfEven_natCast_div _ _ hpos, Int.cast_natCast]

/-! ## The evaluator (src/regulationcoder/core/engine.py)

The profile is an opaque type `α` (the engine only hands it to rule
execution).  `ex rule profile` is the execution oracle modelling the
observable behaviour of `_execute_evaluation`: either a returned verdict
string (`Except.ok`) — from the native predicate or from the sandboxed
fallback, which internally converts its own failures to
`"manual_review"` — or a raised exception (`Except.error`), which in the
source escapes `_execute_evaluation` only from the native-predicate call
and is caught per rule in `_evaluate_rule`. -/

/-- `verdict_map.get(verdict, RuleVerdict.MANUAL_REVIEW)`. -/
def verdictMapGet (s : String) : RuleVerdict :=
  if s = "pass" then RuleVerdict.pass
  else if s = "fail" then RuleVerdict.fail
  else if s = "not_applicable" then RuleVerdict.notApplicable
  else RuleVerdict.manualReview

/-- `ComplianceEngine._evaluate_rule(rule, profile_dict)`
(engine.py, lines 143-186). -/
def evaluateRule {α : Type} (ex : Rule → α → Except Unit String)
    (rule : Rule) (profile : α) : RuleResult :=
  let articleRef :=
    match rule.citations with
    | [] => ""
    | c :: _ => c.articleRef
  if rule.ruleType = RuleType.manual then
    { ruleId := rule.id
      requirementId := rule.requirementId
      title := rule.title
      verdict := RuleVerdict.manualReview
      severity := rule.severity.value
      details := "Requires manual assessment"
      remediation := ""
      articleRef := articleRef
      citations := rule.citations }
  else
    let verdictStr :=
      match ex rule profile with
      | Except.ok s => s
      | Except.error _ => "manual_review"
    { ruleId := rule.id
      requirementId := rule.requirementId
      title := rule.title
      verdict := verdictMapGet verdictStr
      severity := rule.severity.value
      details := rule.description
      remediation := rule.remediation
      articleRef := articleRef
      citations := rule.citations }

/-- The gap built from a failing rule (engine.py, lines 83-91):
`description = result.details or rule.title` (Python `or`: the empty
string falls back to the title). -/
def mkGap (rule : Rule) (result : RuleResult) : ComplianceGap :=
  { ruleId := rule.id
    requirementId := rule.requirementId
    description := if result.details = "" then rule.title else result.details
    severity := rule.severity.value
    remediation := rule.remediation
    articleRef := result.articleRef
    citations := rule.citations }

/-- Accumulator of the main loop of `evaluate`: the rule-result list and
the three gap buckets, in append order. -/
structure EvalAcc where
  results : List RuleResult
  crit : List ComplianceGap
  high : List ComplianceGap
  med : List ComplianceGap
  deriving DecidableEq, Repr

/-- One iteration of the `for rule in self._rules` loop of `evaluate`
(engine.py, lines 78-97). -/
def evalStep {α : Type} (ex : Rule → α → Except Unit String) (profile : α)
    (acc : EvalAcc) (rule : Rule) : EvalAcc :=
  let result := evaluateRule ex rule profile
  let acc := { acc with results := acc.results ++ [result] }
  if result.verdict = RuleVerdict.fail then
    let gap := mkGap rule result
    if rule.severity.value = "critical" then
      { acc with crit := acc.crit ++ [gap] }
    else if rule.severity.value = "high" then
      { acc with high := acc.high ++ [gap] }
    else
      { acc with med := acc.med ++ [gap] }
  else acc

/-- `ComplianceEngine.evaluate(profile)` (engine.py, lines 66-141).
`nowStr` stands for `now.strftime(...)`; identity fields are passed in
place of the profile attributes the source reads. -/
def evaluate {α : Type} (ex : Rule → α → Except Unit String)
    (rules : List Rule) (profile : α)
    (regulation systemName providerName nowStr : String) : ComplianceReport :=
  let acc := rules.foldl (evalStep ex profile) ⟨[], [], [], []⟩
  let passed := acc.results.countP (fun r => decide (r.verdict = RuleVerdict.pass))
  let failed := acc.results.countP (fun r => decide (r.verdict = RuleVerdict.fail))
  let na := acc.results.countP (fun r => decide (r.verdict = RuleVerdict.notApplicable))
  let manual := acc.results.countP (fun r => decide (r.verdict = RuleVerdict.manualReview))
  let score := complianceScoreOf passed failed
  let overall :=
    if score ≥ 90 ∧ acc.crit = [] then "compliant"
    else if score ≥ 60 then "partial_compliance"
    else "non_compliant"
  { id := "RPT-" ++ regulation ++ "-" ++ nowStr
    regulationId := regulation
    systemName := systemName
    providerName := providerName
    evaluationDate := nowStr
    summary :=
      { totalRules := acc.results.length
        passed := passed
        failed := failed
        notApplicable := na
        manualReview := manual
        complianceScore := score }
    ruleResults := acc.results
    criticalGaps := acc.crit
    highGaps := acc.high
    mediumGaps := acc.med
    overallVerdict := overall }

/-! ## Characterization of the evaluation loop -/

/-- The rule results produced by `evaluate`, in catalogue order. -/
def ruleResultsOf {α : Type} (ex : Rule → α → Except Unit String)
    (rules : List Rule) (profile : α) : List RuleResult :=
  rules.map (fun rule => evaluateRule ex rule profile)

/-- The gaps of the failing rules whose severity string passes `sevTest`,
in catalogue order. -/
def gapsWhere {α : Type} (ex : Rule → α → Except Unit String)
    (rules : List Rule) (profile : α) (sevTest : String → Bool) :
    List ComplianceGap :=
  rules.filterMap (fun rule =>
    let result := evaluateRule ex rule profile
    if decide (result.verdict = RuleVerdict.fail) && sevTest rule.severity.value
    then some (mkGap rule result) else none)

/-- Severity test of the `critical` bucket. -/
def critTest (s : String) : Bool := s = "critical"

/-- Severity test of the `high` bucket (the `elif` branch: not critical). -/
def highTest (s : String) : Bool := !(s = "critical" : Bool) && (s = "high")

/-- Severity test of the `medium` bucket (the `else` branch). -/
def medTest (s : String) : Bool := !(s = "critical" : Bool) && !(s = "high" : Bool)

theorem foldl_evalStep_spec {α : Type} (ex : Rule → α → Except Unit String)
    (profile : α) :
    ∀ (rules : List Rule) (acc : EvalAcc),
      rules.foldl (evalStep ex profile) acc =
        { results := acc.results ++ ruleResultsOf ex rules profile
          crit := acc.crit ++ gapsWhere ex rules profile critTest
          high := acc.high ++ gapsWhere ex rules profile highTest
          med := acc.med ++ gapsWhere ex rules profile medTest } := by
  intro rules
  induction rules with
  | nil =>
    intro acc
    simp [ruleResultsOf, gapsWhere]
  | cons r rs ih =>
    intro acc
    rw [List.foldl_cons, ih]
    have hres : ruleResultsOf ex (r :: rs) profile
        = evaluateRule ex r profile :: ruleResultsOf ex rs profile := by
      simp [ruleResultsOf]
    have hgap : ∀ t : String → Bool, gapsWhere ex (r :: rs) profile t
        = (if decide ((evaluateRule ex r profile).verdict = RuleVerdict.fail)
              && t r.severity.value
           then [mkGap r (evaluateRule ex r profile)] else [])
          ++ gapsWhere ex rs profile t := by
      intro t
      simp only [gapsWhere, List.filterMap_cons]
      by_cases hc : decide ((evaluateRule ex r profile).verdict = RuleVerdict.fail)
          && t r.severity.value
      · rw [if_pos hc]
        simp [hc]
      · rw [if_neg hc]
        simp [hc]
    rw [hres, hgap critTest, hgap highTest, hgap medTest]
    show EvalAcc.mk _ _ _ _ = EvalAcc.mk _ _ _ _
    by_cases hv : (evaluateRule ex r profile).verdict = RuleVerdict.fail
    · by_cases hcrit : r.severity.value = "critical"
      · simp [evalStep, hv, hcrit, critTest, highTest, medTest]
      · by_cases hhigh : r.severity.value = "high"
        · simp [evalStep, hv, hcrit, hhigh, critTest, highTest, medTest]
        · simp [evalStep, hv, hcrit, hhigh, critTest, highTest, medTest]
    · simp [evalStep, hv, critTest, highTest, medTest]

/-- Unfolding of the full evaluation loop from the empty accumulator. -/
theorem evalAcc_spec {α : Type} (ex : Rule → α → Except Unit String)
    (rules : List Rule) (profile : α) :
    rules.foldl (evalStep ex profile) ⟨[], [], [], []⟩ =
      { results := ruleResultsOf ex rules profile
        crit := gapsWhere ex rules profile critTest
        high := gapsWhere ex rules profile highTest
        med := gapsWhere ex rules profile medTest } := by
  rw [foldl_evalStep_spec]
  simp

/-- Number of results with a given verdict. -/
def countVerdict (results : List RuleResult) (v : RuleVerdict) : ℕ :=
  results.countP (fun r => decide (r.verdict = v))

/-- Field-level description of the report `evaluate` returns. -/
theorem evaluate_eq {α : Type} (ex : Rule → α → Except Unit String)
    (rules : List Rule) (profile : α)
    (regulation systemName providerName nowStr : String) :
    evaluate ex rules profile regulation systemName providerName nowStr =
      (let results := ruleResultsOf ex rules profile
       let passed := countVerdict results RuleVerdict.pass
       let failed := countVerdict results RuleVerdict.fail
       let crit := gapsWhere ex rules profile critTest
       let score := complianceScoreOf passed failed
       { id := "RPT-" ++ regulation ++ "-" ++ nowStr
         regulationId := regulation
         systemName := systemName
         providerName := providerName
         evaluationDate := nowStr
         summary :=
           { totalRules := results.length
             passed := passed
             failed := failed
             notApplicable := countVerdict results RuleVerdict.notApplicable
             manualReview := countVerdict results RuleVerdict.manualReview
             complianceScore := score }
         ruleResults := results
         criticalGaps := crit
         highGaps := gapsWhere ex rules profile highTest
         mediumGaps := gapsWhere ex rules profile medTest
         overallVerdict :=
           if score ≥ 90 ∧ crit = [] then "compliant"
           else if score ≥ 60 then "partial_compliance"
           else "non_compliant" }) := by
  unfold evaluate
  rw [evalAcc_spec]
  rfl

/-! ## Audit log (src/regulationcoder/audit/logger.py, chain.py)

The SHA-256 digest is an abstract parameter `H : String → String`.  The
`details` dict is represented by its canonical serialization
`json.dumps(details, sort_keys=True, default=str)` — a plain string — since
persisting and re-parsing a JSON-able dict reproduces the same canonical
dump.  A datetime value is represented by its Python `isoformat()` string;
Pydantic's JSON wire form replaces a trailing `+00:00` with `Z`, which is
exactly `AuditLogger._normalize_timestamp`. -/

/-- `_GENESIS_HASH = "0" * 64`. -/
def genesisHash : String := String.mk (List.replicate 64 '0')

/-- `AuditAction` (models/audit_entry.py). -/
inductive AuditAction where
  | ingest | parse | extract | formalize | codegen | judge | evaluateAct | diff | export
  deriving DecidableEq, Repr

/-- `AuditAction.value`: the string value of the Python `str`-enum member. -/
def AuditAction.value : AuditAction → String
  | .ingest => "ingest"
  | .parse => "parse"
  | .extract => "extract"
  | .formalize => "formalize"
  | .codegen => "codegen"
  | .judge => "judge"
  | .evaluateAct => "evaluate"
  | .diff => "diff"
  | .export => "export"

/-- `s.endswith(suffix)`, on character lists. -/
def strEndsWith (s suffixStr : String) : Bool :=
  suffixStr.data.isSuffixOf s.data

/-- `s[:-n]` for `n ≤ len(s)`: drop the last `n` characters. -/
def strDropRight (s : String) (n : Nat) : String :=
  String.mk (s.data.take (s.data.length - n))

/-- `AuditLogger._normalize_timestamp` (logger.py, lines 119-132):
the Pydantic JSON wire form of a datetime — a trailing `+00:00` of
`isoformat()` becomes `Z`. -/
def normalizeTimestamp (iso : String) : String :=
  if strEndsWith iso "+00:00" then strDropRight iso 6 ++ "Z" else iso

/-- Pydantic's parse of a persisted timestamp back to a datetime,
represented by the parsed datetime's `isoformat()` string: a trailing `Z`
reads back as the `+00:00` offset form. -/
def parseTimestamp (wire : String) : String :=
  if strEndsWith wire "Z" then strDropRight wire 1 ++ "+00:00" else wire

/-- `json.dumps` of a single string (escaping backslash and quote). -/
def jsonStr (s : String) : String :=
  "\"" ++ String.mk (s.data.flatMap (fun c =>
    if c = '\\' then ['\\', '\\']
    else if c = '"' then ['\\', '"']
    else [c])) ++ "\""

/-- `json.dumps(target_ids, sort_keys=True)` of a string list (a JSON
array; `sort_keys` does not reorder arrays). -/
def jsonListStr (xs : List String) : String :=
  "[" ++ String.intercalate ", " (xs.map jsonStr) ++ "]"

/-- `AuditLogger._compute_hash` / `AuditChainVerifier._compute_hash`:
`H("|".join([previous_hash, timestamp_iso, action, target_ids_json,
details_json]))` (logger.py, lines 134-151). -/
def computeHash (H : String → String)
    (previousHash timestampIso actionValue : String)
    (targetIds : List String) (detailsJson : String) : String :=
  H (String.intercalate "|"
    [previousHash, timestampIso, actionValue, jsonListStr targetIds, detailsJson])

/-- One persisted JSONL record (models/audit_entry.py).  `timestamp` holds
the wire string in a persisted entry and the parsed `isoformat()` string in
a loaded entry; `details` holds the canonical JSON text of the dict. -/
structure AuditEntry where
  id : String
  timestamp : String
  action : AuditAction
  stage : String
  actor : String
  targetIds : List String
  inputHash : String
  outputHash : String
  previousHash : String
  entryHash : String
  details : String
  modelUsed : String
  verdict : String
  deriving DecidableEq, Repr

/-- Parsing a persisted line back into an in-memory entry
(`AuditEntry.model_validate_json`): only the timestamp changes
representation. -/
def loadEntry (e : AuditEntry) : AuditEntry :=
  { e with timestamp := parseTimestamp e.timestamp }

/-- The audit log file: `Option.none` models a file that does not exist. -/
def AuditFile : Type := Option (List AuditEntry)

/-- `AuditLogger.load_from_file` (logger.py, lines 180-205): a missing file
yields the empty history; otherwise every line parses into an entry. -/
def loadFromFile (file : AuditFile) : List AuditEntry :=
  match file with
  | Option.none => []
  | some es => es.map loadEntry

/-- `AuditLogger._read_last_hash` (logger.py, lines 158-174): the
`entry_hash` of the last line, or genesis when the file is missing or
empty. -/
def readLastHash (file : AuditFile) : String :=
  match file with
  | Option.none => genesisHash
  | some es =>
    match es.getLast? with
    | some e => e.entryHash
    | Option.none => genesisHash

/-- In-memory state of an `AuditLogger`: the log file plus the previous
hash pointer. -/
structure LoggerState where
  file : AuditFile
  prevHash : String

/-- `AuditLogger.__init__` (logger.py, lines 30-34). -/
def mkLogger (file : AuditFile) : LoggerState :=
  { file := file, prevHash := readLastHash file }

/-- The caller-supplied arguments of one `AuditLogger.log` call, plus the
clock reading (`datetime.now(timezone.utc).isoformat()`) and the fresh
UUID of that call. -/
structure AppendArgs where
  action : AuditAction
  stage : String
  targetIds : List String
  details : String
  actor : String
  inputHash : String
  outputHash : String
  modelUsed : String
  verdict : String
  nowIso : String
  newId : String

/-- `AuditLogger.log` (logger.py, lines 40-113): compute the entry hash
from the previous hash, the wire timestamp, the action value and the
canonical serializations; persist the entry; advance the pointer. -/
def logAppend (H : String → String) (st : LoggerState) (a : AppendArgs) :
    AuditEntry × LoggerState :=
  let ts := normalizeTimestamp a.nowIso
  let eh := computeHash H st.prevHash ts a.action.value a.targetIds a.details
  let entry : AuditEntry :=
    { id := a.newId
      timestamp := ts
      action := a.action
      stage := a.stage
      actor := a.actor
      targetIds := a.targetIds
      inputHash := a.inputHash
      outputHash := a.outputHash
      previousHash := st.prevHash
      entryHash := eh
      details := a.details
      modelUsed := a.modelUsed
      verdict := a.verdict }
  (entry, { file := some ((st.file.getD []) ++ [entry]), prevHash := eh })

/-- A sequence of `log` calls against the same logger. -/
def appendMany (H : String → String) (st : LoggerState)
    (args : List AppendArgs) : LoggerState :=
  args.foldl (fun s a => (logAppend H s a).2) st

/-- The hash `verify_chain` recomputes for a loaded entry (logger.py,
lines 236-243): the loaded timestamp is re-normalized to the wire form. -/
def recomputeHash (H : String → String) (e : AuditEntry) : String :=
  computeHash H e.previousHash (normalizeTimestamp e.timestamp)
    e.action.value e.targetIds e.details

/-- The genesis error message of `verify_chain` (logger.py, 229-233). -/
def genesisMsg (e : AuditEntry) : String :=
  "First entry " ++ e.id ++ " does not reference genesis hash (got '"
    ++ e.previousHash ++ "')"

/-- The hash-mismatch error message of `verify_chain` (logger.py, 244-248). -/
def hashMismatchMsg (H : String → String) (e : AuditEntry) : String :=
  "Entry " ++ e.id ++ " hash mismatch: expected " ++ recomputeHash H e
    ++ ", got " ++ e.entryHash

/-- The linkage error message of `verify_chain` (logger.py, 250-256). -/
def chainBrokenMsg (e p : AuditEntry) : String :=
  "Entry " ++ e.id ++ " chain broken: previous_hash=" ++ e.previousHash
    ++ " does not match prior entry hash=" ++ p.entryHash

/-- The `for i, entry in enumerate(entries)` loop of `verify_chain`
(logger.py, lines 235-256): per entry, the hash recomputation error then
the linkage error against the predecessor (skipped for the first entry). -/
def chainScan (H : String → String) :
    List AuditEntry → Option AuditEntry → List String
  | [], _ => []
  | e :: rest, prev =>
    (if e.entryHash = recomputeHash H e then [] else [hashMismatchMsg H e])
    ++ (match prev with
        | Option.none => []
        | some p =>
          if e.previousHash = p.entryHash then [] else [chainBrokenMsg e p])
    ++ chainScan H rest (some e)

/-- `AuditLogger.verify_chain` (logger.py, lines 207-258). -/
def verifyChain (H : String → String) (entries : List AuditEntry) :
    Bool × List String :=
  match entries with
  | [] => (true, [])
  | first :: _ =>
    let errs :=
      (if first.previousHash = genesisHash then [] else [genesisMsg first])
        ++ chainScan H entries Option.none
    (errs.isEmpty, errs)

/-- The missing-file error of `AuditChainVerifier.verify` (chain.py,
lines 46-48; the message carries the path in the source). -/
def fileNotFoundMsg : String := "Audit log file not found"

/-- `previous_hash` mismatch message of `AuditChainVerifier.verify`. -/
def prevMismatchMsg (e : AuditEntry) : String :=
  "Entry " ++ e.id ++ ": previous_hash mismatch"

/-- `entry_hash` mismatch message of `AuditChainVerifier.verify`. -/
def wireHashMismatchMsg (e : AuditEntry) : String :=
  "Entry " ++ e.id ++ ": entry_hash mismatch"

/-- The hash `AuditChainVerifier` recomputes: it hashes the persisted
timestamp string exactly as stored (chain.py, lines 86-98). -/
def recomputeWire (H : String → String) (e : AuditEntry) : String :=
  computeHash H e.previousHash e.timestamp e.action.value e.targetIds e.details

/-- The verification walk of `AuditChainVerifier.verify` (chain.py,
lines 70-112): linkage against the running expected hash, then the hash
recomputation, then advance to the stored hash. -/
def verifierScan (H : String → String) :
    String → List AuditEntry → List String
  | _, [] => []
  | expectedPrev, e :: rest =>
    (if e.previousHash = expectedPrev then [] else [prevMismatchMsg e])
    ++ (if recomputeWire H e = e.entryHash then [] else [wireHashMismatchMsg e])
    ++ verifierScan H e.entryHash rest

/-- `AuditChainVerifier.verify` (chain.py, lines 28-123), on the storage:
a missing file is reported as an error; an existing empty log is valid. -/
def chainVerifierVerify (H : String → String) (file : AuditFile) :
    Bool × List String :=
  match file with
  | Option.none => (false, [fileNotFoundMsg])
  | some entries =>
    match entries with
    | [] => (true, [])
    | _ =>
      let errs := verifierScan H genesisHash entries
      (errs.isEmpty, errs)

/-! ## Timestamp wire-format round trip -/

theorem strEndsWith_append (x y : String) : strEndsWith (x ++ y) y = true := by
  simp only [strEndsWith, String.data_append, List.isSuffixOf_iff_suffix]
  exact List.suffix_append x.data y.data

theorem strDropRight_append (x y : String) :
    strDropRight (x ++ y) y.data.length = x := by
  apply String.ext
  show ((x ++ y).data.take ((x ++ y).data.length - y.data.length)) = x.data
  rw [String.data_append, List.length_append, Nat.add_sub_cancel]
  exact List.take_left x.data y.data

theorem strEndsWith_iff (s y : String) :
    strEndsWith s y = true ↔ ∃ t : String, s = t ++ y := by
  constructor
  · intro h
    simp only [strEndsWith, List.isSuffixOf_iff_suffix] at h
    obtain ⟨t, ht⟩ := h
    refine ⟨String.mk t, (String.ext ?_).symm⟩
    rw [String.data_append]
    exact ht
  · rintro ⟨t, rfl⟩
    exact strEndsWith_append t y

theorem normalize_append_offset (c : String) :
    normalizeTimestamp (c ++ "+00:00") = c ++ "Z" := by
  rw [normalizeTimestamp, if_pos (strEndsWith_append c "+00:00")]
  rw [show (6 : Nat) = ("+00:00" : String).data.length from rfl,
    strDropRight_append]

theorem parse_append_z (c : String) :
    parseTimestamp (c ++ "Z") = c ++ "+00:00" := by
  rw [parseTimestamp, if_pos (strEndsWith_append c "Z")]
  rw [show (1 : Nat) = ("Z" : String).data.length from rfl, strDropRight_append]

/-- The verifier re-normalizes a parsed wire timestamp back to exactly the
string that was hashed at append time. -/
theorem normalize_parse_normalize (s : String) :
    normalizeTimestamp (parseTimestamp (normalizeTimestamp s))
      = normalizeTimestamp s := by
  by_cases h6 : strEndsWith s "+00:00" = true
  · obtain ⟨c, rfl⟩ := (strEndsWith_iff s "+00:00").mp h6
    rw [normalize_append_offset, parse_append_z, normalize_append_offset]
  · rw [show normalizeTimestamp s = s from by
        rw [normalizeTimestamp, if_neg (by simp [h6])]]
    by_cases hz : strEndsWith s "Z" = true
    · obtain ⟨c, rfl⟩ := (strEndsWith_iff s "Z").mp hz
      rw [parse_append_z, normalize_append_offset]
    · rw [parseTimestamp, if_neg (by simp [hz]),
        normalizeTimestamp, if_neg (by simp [h6])]

/-! ## Chain validity -/

/-- A list of loaded entries forms a well-linked, hash-consistent chain
starting from the previous hash `ph`. -/
inductive ValidFrom (H : String → String) : String → List AuditEntry → Prop
  | nil (ph : String) : ValidFrom H ph []
  | cons (ph : String) (e : AuditEntry) (rest : List AuditEntry)
      (hprev : e.previousHash = ph)
      (hhash : e.entryHash = recomputeHash H e)
      (htail : ValidFrom H e.entryHash rest) :
      ValidFrom H ph (e :: rest)

theorem chainScan_of_valid (H : String → String) :
    ∀ (l : List AuditEntry) (ph : String), ValidFrom H ph l →
      ∀ (prev : Option AuditEntry),
        (prev = Option.none ∨ ∃ p, prev = some p ∧ p.entryHash = ph) →
        chainScan H l prev = [] := by
  intro l
  induction l with
  | nil => intro ph _ prev _; rfl
  | cons e rest ih =>
    intro ph hv prev hprev
    cases hv with
    | cons _ _ _ hp hh ht =>
      have htail : chainScan H rest (some e) = [] :=
        ih e.entryHash ht (some e) (Or.inr ⟨e, rfl, rfl⟩)
      rcases hprev with rfl | ⟨p, rfl, hph⟩
      · simp [chainScan, hh, htail]
      · simp [chainScan, hh, htail, hp, hph]

/-- A valid-from-genesis chain passes `verify_chain` cleanly. -/
theorem verifyChain_of_valid (H : String → String) (l : List AuditEntry)
    (hv : ValidFrom H genesisHash l) : verifyChain H l = (true, []) := by
  cases hv with
  | nil => rfl
  | cons _ e rest hp hh ht =>
    have hscan : chainScan H (e :: rest) Option.none = [] :=
      chainScan_of_valid H (e :: rest) genesisHash
        (ValidFrom.cons _ e rest hp hh ht) Option.none (Or.inl rfl)
    simp [verifyChain, hscan, hp]

theorem valid_of_chainScan_some (H : String → String) :
    ∀ (l : List AuditEntry) (p : AuditEntry),
      chainScan H l (some p) = [] → ValidFrom H p.entryHash l := by
  intro l
  induction l with
  | nil => intro p _; exact ValidFrom.nil _
  | cons e rest ih =>
    intro p h
    rw [chainScan] at h
    rcases List.append_eq_nil.mp h with ⟨h12, hrest⟩
    rcases List.append_eq_nil.mp h12 with ⟨h1, h2⟩
    have hh : e.entryHash = recomputeHash H e := by
      by_contra hc
      rw [if_neg hc] at h1
      exact List.cons_ne_nil _ _ h1
    have hp : e.previousHash = p.entryHash := by
      by_contra hc
      rw [if_neg hc] at h2
      exact List.cons_ne_nil _ _ h2
    exact ValidFrom.cons _ e rest hp hh (ih e hrest)

/-- A chain that `verify_chain` accepts is valid from genesis. -/
theorem valid_of_verifyChain (H : String → String) (l : List AuditEntry)
    (h : verifyChain H l = (true, [])) : ValidFrom H genesisHash l := by
  cases l with
  | nil => exact ValidFrom.nil _
  | cons e rest =>
    have herrs : (if e.previousHash = genesisHash then [] else [genesisMsg e])
        ++ chainScan H (e :: rest) Option.none = [] :=
      congrArg Prod.snd h
    rcases List.append_eq_nil.mp herrs with ⟨hgen, hscan⟩
    have hp : e.previousHash = genesisHash := by
      by_contra hc
      rw [if_neg hc] at hgen
      exact List.cons_ne_nil _ _ hgen
    rw [chainScan] at hscan
    rcases List.append_eq_nil.mp hscan with ⟨h12, hrest⟩
    rcases List.append_eq_nil.mp h12 with ⟨h1, _⟩
    have hh : e.entryHash = recomputeHash H e := by
      by_contra hc
      rw [if_neg hc] at h1
      exact List.cons_ne_nil _ _ h1
    exact ValidFrom.cons _ e rest hp hh (valid_of_chainScan_some H rest e hrest)

/-! ## The logger preserves chain validity -/

/-- The hash a chain starting from `ph` ends with (the last entry's hash,
or `ph` itself for the empty chain). -/
def chainEndHash (ph : String) : List AuditEntry → String
  | [] => ph
  | e :: rest => chainEndHash e.entryHash rest

theorem chainEndHash_append (e : AuditEntry) :
    ∀ (l : List AuditEntry) (ph : String),
      chainEndHash ph (l ++ [e]) = e.entryHash := by
  intro l
  induction l with
  | nil => intro ph; rfl
  | cons x xs ih => intro ph; exact ih x.entryHash

theorem chainEndHash_getLast : ∀ (l : List AuditEntry) (ph : String),
    chainEndHash ph l =
      (match l.getLast? with
       | some e => e.entryHash
       | Option.none => ph) := by
  intro l
  induction l with
  | nil => intro ph; rfl
  | cons x xs ih =>
    intro ph
    show chainEndHash x.entryHash xs = _
    rw [ih x.entryHash]
    cases xs with
    | nil => rfl
    | cons y ys =>
      obtain ⟨e, he⟩ : ∃ e, (y :: ys).getLast? = some e :=
        ⟨(y :: ys).getLast (by simp), List.getLast?_eq_getLast _ (by simp)⟩
      rw [List.getLast?_cons_cons, he]

theorem valid_snoc (H : String → String) (e : AuditEntry) :
    ∀ (l : List AuditEntry) (ph : String), ValidFrom H ph l →
      e.previousHash = chainEndHash ph l →
      e.entryHash = recomputeHash H e →
      ValidFrom H ph (l ++ [e]) := by
  intro l
  induction l with
  | nil =>
    intro ph _ hprev hhash
    exact ValidFrom.cons ph e [] hprev hhash (ValidFrom.nil _)
  | cons x xs ih =>
    intro ph hv hprev hhash
    cases hv with
    | cons _ _ _ hp hh ht =>
      exact ValidFrom.cons ph x (xs ++ [e]) hp hh (ih x.entryHash ht hprev hhash)

/-- The invariant a live logger maintains: a valid on-disk chain whose end
hash equals the in-memory previous-hash pointer. -/
def GoodState (H : String → String) (st : LoggerState) : Prop :=
  ValidFrom H genesisHash (loadFromFile st.file)
    ∧ st.prevHash = chainEndHash genesisHash (loadFromFile st.file)

theorem loadFromFile_append (old : List AuditEntry) (w : AuditEntry) :
    loadFromFile (some (old ++ [w])) = loadFromFile (some old) ++ [loadEntry w] := by
  simp [loadFromFile]

/-- The hash the verifier recomputes for a freshly appended, persisted and
re-loaded entry is exactly the persisted `entry_hash`: the timestamp's
canonical wire form survives the round trip. -/
theorem recomputeHash_loadEntry_logAppend (H : String → String)
    (st : LoggerState) (a : AppendArgs) :
    recomputeHash H (loadEntry (logAppend H st a).1)
      = ((logAppend H st a).1).entryHash := by
  show computeHash H st.prevHash
      (normalizeTimestamp (parseTimestamp (normalizeTimestamp a.nowIso)))
      a.action.value a.targetIds a.details
    = computeHash H st.prevHash (normalizeTimestamp a.nowIso)
      a.action.value a.targetIds a.details
  rw [normalize_parse_normalize]

theorem logAppend_good (H : String → String) (st : LoggerState)
    (a : AppendArgs) (hg : GoodState H st) :
    GoodState H (logAppend H st a).2 := by
  obtain ⟨hv, hend⟩ := hg
  have hfile : (logAppend H st a).2.file
      = some ((st.file.getD []) ++ [(logAppend H st a).1]) := rfl
  have hload : loadFromFile (logAppend H st a).2.file
      = loadFromFile st.file ++ [loadEntry (logAppend H st a).1] := by
    rw [hfile, loadFromFile_append]
    cases hst : st.file with
    | none => rfl
    | some es => rfl
  constructor
  · rw [hload]
    apply valid_snoc H _ _ _ hv
    · show st.prevHash = _
      exact hend
    · show ((logAppend H st a).1).entryHash = _
      rw [recomputeHash_loadEntry_logAppend]
  · rw [hload, chainEndHash_append]
    rfl

theorem appendMany_good (H : String → String) :
    ∀ (args : List AppendArgs) (st : LoggerState), GoodState H st →
      GoodState H (appendMany H st args) := by
  intro args
  induction args with
  | nil => intro st hg; exact hg
  | cons a as ih =>
    intro st hg
    exact ih (logAppend H st a).2 (logAppend_good H st a hg)

theorem appendMany_cons (H : String → String) (st : LoggerState)
    (a : AppendArgs) (as : List AppendArgs) :
    appendMany H st (a :: as) = appendMany H (logAppend H st a).2 as := rfl

/-- `readLastHash` is the end hash of the loaded chain. -/
theorem readLastHash_eq_chainEnd (file : AuditFile) :
    readLastHash file = chainEndHash genesisHash (loadFromFile file) := by
  cases file with
  | none => rfl
  | some es =>
    rw [chainEndHash_getLast]
    show (match es.getLast? with
          | some e => e.entryHash
          | Option.none => genesisHash) = _
    induction es with
    | nil => rfl
    | cons x xs ih =>
      cases hxs : xs with
      | nil => rfl
      | cons y ys =>
        rw [List.getLast?_cons_cons]
        show _ = (match ((loadEntry x :: loadEntry y :: ys.map loadEntry)).getLast? with
                  | some e => e.entryHash
                  | Option.none => genesisHash)
        rw [List.getLast?_cons_cons]
        subst hxs
        simpa [loadFromFile, List.getLast?_cons_cons] using ih

/-- A logger constructed over a well-formed (or absent) log is in a good
state. -/
theorem mkLogger_good (H : String → String) (file : AuditFile)
    (hv : ValidFrom H genesisHash (loadFromFile file)) :
    GoodState H (mkLogger file) :=
  ⟨hv, readLastHash_eq_chainEnd file⟩

/-- A fresh logger over a missing file. -/
def freshLogger : LoggerState := mkLogger Option.none

theorem valid_mem_hash (H : String → String) :
    ∀ (l : List AuditEntry) (ph : String), ValidFrom H ph l →
      ∀ e ∈ l, e.entryHash = recomputeHash H e := by
  intro l
  induction l with
  | nil => intro ph _ e he; exact absurd he (List.not_mem_nil e)
  | cons x xs ih =>
    intro ph hv e he
    cases hv with
    | cons _ _ _ hp hh ht =>
      rcases List.mem_cons.mp he with rfl | hmem
      · exact hh
      · exact ih x.entryHash ht e hmem

theorem valid_link (H : String → String) :
    ∀ (l : List AuditEntry) (ph : String), ValidFrom H ph l →
      ∀ (i : ℕ) (h : i + 1 < l.length),
        (l.get ⟨i + 1, h⟩).previousHash
          = (l.get ⟨i, Nat.lt_of_succ_lt h⟩).entryHash := by
  intro l
  induction l with
  | nil => intro ph _ i h; exact absurd h (by simp)
  | cons x xs ih =>
    intro ph hv i h
    cases hv with
    | cons _ _ _ hp hh ht =>
      cases i with
      | zero =>
        cases xs with
        | nil => exact absurd h (by simp)
        | cons y ys =>
          cases ht with
          | cons _ _ _ hpy _ _ => exact hpy
      | succ j =>
        exact ih x.entryHash ht j (Nat.lt_of_succ_lt_succ h)

/-- The fixed part of the hash input before the details component. -/
def hashInputStem (previousHash timestampIso actionValue : String)
    (targetIds : List String) : String :=
  ((((((previousHash ++ "|") ++ timestampIso) ++ "|") ++ actionValue) ++ "|")
    ++ jsonListStr targetIds) ++ "|"

theorem computeHash_decomp (H : String → String)
    (p t a : String) (g : List String) (d : String) :
    computeHash H p t a g d = H (hashInputStem p t a g ++ d) := rfl

/-- With an injective digest, two hashes over the same stem agree only on
equal details serializations. -/
theorem computeHash_details_inj (H : String → String)
    (hInj : Function.Injective H) (p t a : String) (g : List String)
    (d d' : String) (h : computeHash H p t a g d = computeHash H p t a g d') :
    d = d' := by
  rw [computeHash_decomp, computeHash_decomp] at h
  have h2 := hInj h
  have h3 : (hashInputStem p t a g).data ++ d.data
      = (hashInputStem p t a g).data ++ d'.data := by
    have := congrArg String.data h2
    rwa [String.data_append, String.data_append] at this
  exact String.ext (List.append_cancel_left h3)

/-- Overwriting the `details` field of an entry without recomputing its
hash. -/
def setDetails (e : AuditEntry) (d : String) : AuditEntry :=
  { e with details := d }


end RegCoder

namespace RegCoder


/-! ## Sanity examples -/

example : resolveField (PyVal.dict [("x", PyVal.int 1)]) "x" = PyVal.int 1 := rfl
example : resolveField (PyVal.dict [("x", PyVal.int 1)]) "system_profile.x" = PyVal.int 1 := rfl
example : resolveField (PyVal.dict [("a", PyVal.dict [("b", PyVal.bool true)])]) "a.b"
    = PyVal.bool true := rfl
example : resolveField (PyVal.dict [("a", PyVal.int 2)]) "a.b" = PyVal.none := rfl
example : complianceScoreOf 2 1 = 667 / 10 := by
  rw [complianceScoreOf_eq]
  norm_num [scoreTenths, natRoundHalfEven]
example : complianceScoreOf 1 15 = 62 / 10 := by
  rw [complianceScoreOf_eq]
  norm_num [scoreTenths, natRoundHalfEven]

/-! ## Claims about the field resolver -/

theorem stripNs_marker_append (p : String) :
    stripNs ("system_profile." ++ p) = p := by
  have hmark : hasNsMarker ("system_profile." ++ p) = true := by
    simp only [hasNsMarker, nsMarker, String.data_append,
      List.isPrefixOf_iff_prefix]
    exact List.prefix_append _ _
  rw [stripNs, if_pos hmark]
  apply String.ext
  show (("system_profile" ++ "." : String) ++ p).data.drop nsMarker.data.length
      = p.data
  rw [String.data_append]
  exact List.drop_left _ _

/-- C6 counterexample: prepending `"system_profile."` to a path that
already carries the marker changes the resolved value, because the marker
is stripped only once. -/
theorem C6_counterexample :
    resolveField (PyVal.dict [("x", PyVal.int 1)])
        ("system_profile." ++ "system_profile.x")
      ≠ resolveField (PyVal.dict [("x", PyVal.int 1)]) "system_profile.x" :=
  fun h => nomatch h

/-- C6 (amended): `_resolve_field` is deterministic, and prepending the
conventional `"system_profile."` marker does not change the resolved value
provided the path does not itself already start with the marker. -/
theorem C6_resolveField_marker (data : PyVal) (p : String) :
    resolveField data p = resolveField data p
    ∧ (hasNsMarker p = false →
        resolveField data ("system_profile." ++ p) = resolveField data p) := by
  refine ⟨rfl, fun hp => ?_⟩
  rw [resolveField, resolveField, stripNs_marker_append,
    show stripNs p = p from by rw [stripNs, hp]; rfl]

/-- C6 witness: the amended equation at a concrete profile and path. -/
theorem C6_witness :
    resolveField (PyVal.dict [("x", PyVal.int 1)]) ("system_profile." ++ "x")
      = resolveField (PyVal.dict [("x", PyVal.int 1)]) "x" :=
  (C6_resolveField_marker (PyVal.dict [("x", PyVal.int 1)]) "x").2 (by decide)

/-- C7: resolution is total (`walkPath`/`resolveField` are total functions
into `PyVal`, never raising) and short-circuits to `None` as soon as any
segment finds a non-mapping, an absent key, or a stored `None` —
`stepGet (walkPath data pre) p = None` is exactly that condition after the
segments `pre`. -/
theorem C7_resolveField_short_circuit (data : PyVal) (pre : List String)
    (p : String) (post : List String)
    (h : stepGet (walkPath data pre) p = PyVal.none) :
    walkPath data (pre ++ p :: post) = PyVal.none
    ∧ ∀ q : String, resolveField data q = walkPath data (splitDot (stripNs q)) := by
  refine ⟨?_, fun q => rfl⟩
  induction pre generalizing data with
  | nil =>
    cases data with
    | dict kvs =>
      have hnone : dictGet kvs p = PyVal.none := h
      show (if (dictGet kvs p).isNoneV then PyVal.none
            else walkPath (dictGet kvs p) post) = PyVal.none
      rw [hnone]
      rfl
    | none => rfl
    | bool b => rfl
    | str s => rfl
    | int n => rfl
    | list l => rfl
  | cons q pre' ih =>
    cases data with
    | dict kvs =>
      show (if (dictGet kvs q).isNoneV then PyVal.none
            else walkPath (dictGet kvs q) (pre' ++ p :: post)) = PyVal.none
      by_cases hq : (dictGet kvs q).isNoneV = true
      · rw [if_pos hq]
      · rw [if_neg hq]
        apply ih
        have hwalk : walkPath (PyVal.dict kvs) (q :: pre')
            = walkPath (dictGet kvs q) pre' := by
          show (if (dictGet kvs q).isNoneV then PyVal.none
                else walkPath (dictGet kvs q) pre') = _
          rw [if_neg hq]
        rw [← hwalk]
        exact h
    | none => rfl
    | bool b => rfl
    | str s => rfl
    | int n => rfl
    | list l => rfl

/-- C7 witness: a concrete short-circuit — after resolving `a` to an
integer, the remaining segments `b.c` resolve to `None`. -/
theorem C7_witness :
    walkPath (PyVal.dict [("a", PyVal.int 1)]) (["a"] ++ "b" :: ["c"])
        = PyVal.none
    ∧ ∀ q : String, resolveField (PyVal.dict [("a", PyVal.int 1)]) q
        = walkPath (PyVal.dict [("a", PyVal.int 1)]) (splitDot (stripNs q)) :=
  C7_resolveField_short_circuit (PyVal.dict [("a", PyVal.int 1)])
    ["a"] "b" ["c"] rfl

/-! ## Helper lemmas on `evaluate` projections -/

theorem evaluate_ruleResults {α : Type} (ex : Rule → α → Except Unit String)
    (rules : List Rule) (profile : α) (rg sn pn ns : String) :
    (evaluate ex rules profile rg sn pn ns).ruleResults
      = ruleResultsOf ex rules profile := by
  rw [evaluate_eq]

theorem evaluate_criticalGaps {α : Type} (ex : Rule → α → Except Unit String)
    (rules : List Rule) (profile : α) (rg sn pn ns : String) :
    (evaluate ex rules profile rg sn pn ns).criticalGaps
      = gapsWhere ex rules profile critTest := by
  rw [evaluate_eq]

theorem evaluate_highGaps {α : Type} (ex : Rule → α → Except Unit String)
    (rules : List Rule) (profile : α) (rg sn pn ns : String) :
    (evaluate ex rules profile rg sn pn ns).highGaps
      = gapsWhere ex rules profile highTest := by
  rw [evaluate_eq]

theorem evaluate_mediumGaps {α : Type} (ex : Rule → α → Except Unit String)
    (rules : List Rule) (profile : α) (rg sn pn ns : String) :
    (evaluate ex rules profile rg sn pn ns).mediumGaps
      = gapsWhere ex rules profile medTest := by
  rw [evaluate_eq]

theorem evaluate_summary_counts {α : Type} (ex : Rule → α → Except Unit String)
    (rules : List Rule) (profile : α) (rg sn pn ns : String) :
    (evaluate ex rules profile rg sn pn ns).summary.passed
        = countVerdict (ruleResultsOf ex rules profile) RuleVerdict.pass
    ∧ (evaluate ex rules profile rg sn pn ns).summary.failed
        = countVerdict (ruleResultsOf ex rules profile) RuleVerdict.fail
    ∧ (evaluate ex rules profile rg sn pn ns).summary.notApplicable
        = countVerdict (ruleResultsOf ex rules profile) RuleVerdict.notApplicable
    ∧ (evaluate ex rules profile rg sn pn ns).summary.manualReview
        = countVerdict (ruleResultsOf ex rules profile) RuleVerdict.manualReview := by
  rw [evaluate_eq]
  exact ⟨rfl, rfl, rfl, rfl⟩

theorem evaluate_score {α : Type} (ex : Rule → α → Except Unit String)
    (rules : List Rule) (profile : α) (rg sn pn ns : String) :
    (evaluate ex rules profile rg sn pn ns).summary.complianceScore
      = complianceScoreOf
          (countVerdict (ruleResultsOf ex rules profile) RuleVerdict.pass)
          (countVerdict (ruleResultsOf ex rules profile) RuleVerdict.fail) := by
  rw [evaluate_eq]

theorem evaluate_overall {α : Type} (ex : Rule → α → Except Unit String)
    (rules : List Rule) (profile : α) (rg sn pn ns : String) :
    (evaluate ex rules profile rg sn pn ns).overallVerdict
      = (if (evaluate ex rules profile rg sn pn ns).summary.complianceScore ≥ 90
            ∧ (evaluate ex rules profile rg sn pn ns).criticalGaps = []
         then "compliant"
         else if (evaluate ex rules profile rg sn pn ns).summary.complianceScore ≥ 60
         then "partial_compliance"
         else "non_compliant") := by
  rw [evaluate_eq]

/-! ## Witness fixtures -/

/-- A minimal automated rule fixture. -/
def demoRule (i : String) (sev : Severity) : Rule :=
  { id := i, requirementId := "REQ-" ++ i, ruleType := RuleType.automated,
    title := "t" ++ i, description := "d" ++ i, inputsNeeded := [],
    evaluationLogic := "", severity := sev, remediation := "r" ++ i,
    citations := [] }

/-- A manual rule fixture. -/
def demoManualRule (i : String) : Rule :=
  { demoRule i Severity.medium with ruleType := RuleType.manual }

/-- An execution oracle driven by a rule-id table. -/
def demoEx (outcomes : List (String × Except Unit String)) :
    Rule → Unit → Except Unit String :=
  fun rule _ =>
    match outcomes.lookup rule.id with
    | some o => o
    | Option.none => Except.ok "manual_review"

def w1rules : List Rule :=
  [demoRule "A" Severity.medium, demoRule "B" Severity.medium,
   demoRule "C" Severity.critical]

def w1ex : Rule → Unit → Except Unit String :=
  demoEx [("A", Except.ok "pass"), ("B", Except.ok "pass"),
          ("C", Except.ok "fail")]

def w2rules : List Rule :=
  (List.range 9).map (fun i => demoRule (Nat.repr i) Severity.medium)
    ++ [demoRule "F" Severity.critical]

def w2ex : Rule → Unit → Except Unit String :=
  fun r _ => Except.ok (if r.id = "F" then "fail" else "pass")

/-! ## Claims about verdict derivation and scoring -/

/-- C1: the overall verdict of every report produced by `evaluate` follows
the exact priority order `compliant` (score ≥ 90 and no critical gaps),
else `partial_compliance` (score ≥ 60), else `non_compliant`; in
particular a score in `[60, 90)` gives `partial_compliance` even with
critical gaps, and a critical gap at score ≥ 90 gives
`partial_compliance`, not `non_compliant`. -/
theorem C1_overall_verdict_priority {α : Type}
    (ex : Rule → α → Except Unit String) (rules : List Rule) (profile : α)
    (rg sn pn ns : String) (r : ComplianceReport)
    (hr : r = evaluate ex rules profile rg sn pn ns) :
    r.overallVerdict
      = (if r.summary.complianceScore ≥ 90 ∧ r.criticalGaps = []
         then "compliant"
         else if r.summary.complianceScore ≥ 60 then "partial_compliance"
         else "non_compliant")
    ∧ (60 ≤ r.summary.complianceScore → r.summary.complianceScore < 90 →
        r.overallVerdict = "partial_compliance")
    ∧ (90 ≤ r.summary.complianceScore → r.criticalGaps ≠ [] →
        r.overallVerdict = "partial_compliance") := by
  subst hr
  have hmain := evaluate_overall ex rules profile rg sn pn ns
  refine ⟨hmain, fun h60 h90 => ?_, fun h90 hcrit => ?_⟩
  · rw [hmain, if_neg (fun hc => absurd hc.1 (not_le.mpr h90)), if_pos h60]
  · rw [hmain, if_neg (fun hc => absurd hc.2 hcrit),
      if_pos (le_trans (by norm_num) h90)]

/-- C1 witness: two passes plus one critical fail give score `66.7` with a
critical gap and verdict `partial_compliance`; nine passes plus one
critical fail give score `90` with a critical gap and still
`partial_compliance`. -/
theorem C1_witness :
    (evaluate w1ex w1rules () "r" "s" "p" "n").overallVerdict
        = "partial_compliance"
    ∧ (evaluate w2ex w2rules () "r" "s" "p" "n").overallVerdict
        = "partial_compliance" := by
  constructor
  · refine (C1_overall_verdict_priority w1ex w1rules () "r" "s" "p" "n" _
      rfl).2.1 ?_ ?_
    · show (60 : ℚ) ≤ complianceScoreOf 2 1
      rw [complianceScoreOf_eq]
      norm_num [scoreTenths, natRoundHalfEven]
    · show complianceScoreOf 2 1 < 90
      rw [complianceScoreOf_eq]
      norm_num [scoreTenths, natRoundHalfEven]
  · refine (C1_overall_verdict_priority w2ex w2rules () "r" "s" "p" "n" _
      rfl).2.2 ?_ ?_
    · show (90 : ℚ) ≤ complianceScoreOf 9 1
      rw [complianceScoreOf_eq]
      norm_num [scoreTenths, natRoundHalfEven]
    · decide

/-- C2: the compliance score of every report equals
`round(passed / (passed + failed) * 100, 1)` when `passed + failed > 0`
and `0` otherwise, where `passed`/`failed` count exactly the `pass`/`fail`
verdicts of the rule results (`not_applicable` and `manual_review` are
excluded from the denominator). -/
theorem C2_score_formula {α : Type}
    (ex : Rule → α → Except Unit String) (rules : List Rule) (profile : α)
    (rg sn pn ns : String) (r : ComplianceReport)
    (hr : r = evaluate ex rules profile rg sn pn ns) :
    (0 < r.summary.passed + r.summary.failed →
      r.summary.complianceScore
        = round1 ((r.summary.passed : ℚ)
            / ((r.summary.passed + r.summary.failed : ℕ) : ℚ) * 100))
    ∧ (r.summary.passed + r.summary.failed = 0 →
        r.summary.complianceScore = 0)
    ∧ r.summary.passed = countVerdict r.ruleResults RuleVerdict.pass
    ∧ r.summary.failed = countVerdict r.ruleResults RuleVerdict.fail
    ∧ r.summary.notApplicable
        = countVerdict r.ruleResults RuleVerdict.notApplicable
    ∧ r.summary.manualReview
        = countVerdict r.ruleResults RuleVerdict.manualReview := by
  subst hr
  obtain ⟨hcp, hcf, hcn, hcm⟩ :=
    evaluate_summary_counts ex rules profile rg sn pn ns
  have hsc := evaluate_score ex rules profile rg sn pn ns
  have hrr := evaluate_ruleResults ex rules profile rg sn pn ns
  refine ⟨fun hpos => ?_, fun hzero => ?_, by rw [hcp, hrr], by rw [hcf, hrr],
    by rw [hcn, hrr], by rw [hcm, hrr]⟩
  · rw [hsc, complianceScoreOf, if_pos (by rw [hcp, hcf] at hpos; exact hpos),
      hcp, hcf]
  · rw [hcp, hcf] at hzero
    rw [hsc, complianceScoreOf_eq, scoreTenths, if_pos hzero]
    norm_num

def w2mrules : List Rule := [demoManualRule "M1", demoManualRule "M2"]

/-- C2 witness: with one pass and one fail the score is the rounded
fraction; with only manual rules the denominator is empty and the score is
`0`. -/
theorem C2_witness :
    (evaluate w1ex w1rules () "r" "s" "p" "n").summary.complianceScore
      = round1 (((evaluate w1ex w1rules () "r" "s" "p" "n").summary.passed : ℚ)
          / (((evaluate w1ex w1rules () "r" "s" "p" "n").summary.passed
              + (evaluate w1ex w1rules () "r" "s" "p" "n").summary.failed : ℕ) : ℚ)
          * 100)
    ∧ (evaluate w1ex w2mrules () "r" "s" "p" "n").summary.complianceScore = 0 :=
  ⟨(C2_score_formula w1ex w1rules () "r" "s" "p" "n" _ rfl).1 (by decide),
   (C2_score_formula w1ex w2mrules () "r" "s" "p" "n" _ rfl).2.1 (by decide)⟩

/-! ## Per-rule error isolation and gap bucketing -/

theorem evaluateRule_error_manual {α : Type}
    (ex : Rule → α → Except Unit String) (rule : Rule) (profile : α)
    (herr : ex rule profile = Except.error ())
    (hnm : rule.ruleType ≠ RuleType.manual) :
    (evaluateRule ex rule profile).verdict = RuleVerdict.manualReview := by
  unfold evaluateRule
  rw [if_neg hnm, herr]
  rfl

def w8rules : List Rule :=
  [demoRule "A" Severity.medium, demoRule "B" Severity.medium]

def w8ex : Rule → Unit → Except Unit String :=
  fun r _ => if r.id = "A" then Except.error () else Except.ok "pass"

/-- C8: if the execution of one non-manual rule raises, that rule's result
is downgraded to `manual_review`, the evaluation does not abort — every
rule of the catalogue still contributes exactly the result of its own
isolated evaluation — and the report is fully populated with one of the
three overall verdicts. -/
theorem C8_per_rule_error_isolation {α : Type}
    (ex : Rule → α → Except Unit String) (rules : List Rule) (profile : α)
    (rg sn pn ns : String) (i : ℕ) (hi : i < rules.length)
    (herr : ex (rules.get ⟨i, hi⟩) profile = Except.error ())
    (hnm : (rules.get ⟨i, hi⟩).ruleType ≠ RuleType.manual)
    (r : ComplianceReport) (hr : r = evaluate ex rules profile rg sn pn ns) :
    r.ruleResults.length = rules.length
    ∧ (∀ (j : ℕ) (hj : j < rules.length),
        r.ruleResults[j]? = some (evaluateRule ex (rules.get ⟨j, hj⟩) profile))
    ∧ (∃ res, r.ruleResults[i]? = some res
        ∧ res.verdict = RuleVerdict.manualReview)
    ∧ (r.overallVerdict = "compliant"
        ∨ r.overallVerdict = "partial_compliance"
        ∨ r.overallVerdict = "non_compliant") := by
  subst hr
  have hrr := evaluate_ruleResults ex rules profile rg sn pn ns
  have hget : ∀ (j : ℕ) (hj : j < rules.length),
      (evaluate ex rules profile rg sn pn ns).ruleResults[j]?
        = some (evaluateRule ex (rules.get ⟨j, hj⟩) profile) := by
    intro j hj
    rw [hrr, ruleResultsOf, List.getElem?_map,
      List.getElem?_eq_getElem hj]
    rfl
  refine ⟨by rw [hrr, ruleResultsOf, List.length_map], hget, ?_, ?_⟩
  · exact ⟨evaluateRule ex (rules.get ⟨i, hi⟩) profile, hget i hi,
      evaluateRule_error_manual ex _ profile herr hnm⟩
  · rw [evaluate_overall ex rules profile rg sn pn ns]
    split_ifs with h1 h2
    · exact Or.inl rfl
    · exact Or.inr (Or.inl rfl)
    · exact Or.inr (Or.inr rfl)

/-- C8 witness: a two-rule catalogue where the first rule's execution
raises — the report has both results, the first downgraded to
`manual_review`, and still carries an overall verdict. -/
theorem C8_witness :
    (evaluate w8ex w8rules () "r" "s" "p" "n").ruleResults.length = 2
    ∧ (evaluate w8ex w8rules () "r" "s" "p" "n").ruleResults[0]?
        = some (evaluateRule w8ex (w8rules.get ⟨0, by decide⟩) ())
    ∧ (evaluateRule w8ex (w8rules.get ⟨0, by decide⟩) ()).verdict
        = RuleVerdict.manualReview
    ∧ ((evaluate w8ex w8rules () "r" "s" "p" "n").overallVerdict = "compliant"
        ∨ (evaluate w8ex w8rules () "r" "s" "p" "n").overallVerdict
            = "partial_compliance"
        ∨ (evaluate w8ex w8rules () "r" "s" "p" "n").overallVerdict
            = "non_compliant") :=
  ⟨(C8_per_rule_error_isolation w8ex w8rules () "r" "s" "p" "n" 0 (by decide)
      rfl (by decide) _ rfl).1,
   (C8_per_rule_error_isolation w8ex w8rules () "r" "s" "p" "n" 0 (by decide)
      rfl (by decide) _ rfl).2.1 0 (by decide),
   by decide,
   (C8_per_rule_error_isolation w8ex w8rules () "r" "s" "p" "n" 0 (by decide)
      rfl (by decide) _ rfl).2.2.2⟩

/-! ## Gap bucketing -/

theorem gapsWhere_cons {α : Type} (ex : Rule → α → Except Unit String)
    (r : Rule) (rs : List Rule) (profile : α) (t : String → Bool) :
    gapsWhere ex (r :: rs) profile t
      = (if decide ((evaluateRule ex r profile).verdict = RuleVerdict.fail)
            && t r.severity.value
         then [mkGap r (evaluateRule ex r profile)] else [])
        ++ gapsWhere ex rs profile t := by
  simp only [gapsWhere, List.filterMap_cons]
  by_cases hc : decide ((evaluateRule ex r profile).verdict = RuleVerdict.fail)
      && t r.severity.value
  · rw [if_pos hc]
    simp [hc]
  · rw [if_neg hc]
    simp [hc]

theorem gaps_length_sum {α : Type} (ex : Rule → α → Except Unit String)
    (profile : α) :
    ∀ rules : List Rule,
      (gapsWhere ex rules profile critTest).length
        + (gapsWhere ex rules profile highTest).length
        + (gapsWhere ex rules profile medTest).length
      = countVerdict (ruleResultsOf ex rules profile) RuleVerdict.fail := by
  intro rules
  induction rules with
  | nil => rfl
  | cons rl rs ih =>
    rw [gapsWhere_cons, gapsWhere_cons, gapsWhere_cons]
    have hcount : countVerdict (ruleResultsOf ex (rl :: rs) profile)
        RuleVerdict.fail
        = countVerdict (ruleResultsOf ex rs profile) RuleVerdict.fail
          + (if (evaluateRule ex rl profile).verdict = RuleVerdict.fail
             then 1 else 0) := by
      simp [countVerdict, ruleResultsOf, List.countP_cons]
    rw [hcount]
    by_cases hv : (evaluateRule ex rl profile).verdict = RuleVerdict.fail
    · cases hsev : rl.severity <;>
        simp [hv, hsev, critTest, highTest, medTest, Severity.value] <;>
        omega
    · simp [hv]
      omega

theorem gapsWhere_mem_sev {α : Type} (ex : Rule → α → Except Unit String)
    (rules : List Rule) (profile : α) (t : String → Bool) :
    ∀ g ∈ gapsWhere ex rules profile t, t g.severity = true := by
  intro g hg
  simp only [gapsWhere, List.mem_filterMap] at hg
  obtain ⟨rule, _, heq⟩ := hg
  by_cases hc : decide ((evaluateRule ex rule profile).verdict
      = RuleVerdict.fail) && t rule.severity.value
  · rw [if_pos hc] at heq
    obtain rfl := Option.some_injective _ heq
    exact (Bool.and_eq_true _ _ |>.mp hc).2
  · rw [if_neg hc] at heq
    exact absurd heq (by simp)

def w9rules : List Rule :=
  [demoRule "L" Severity.low, demoRule "P" Severity.medium]

def w9ex : Rule → Unit → Except Unit String :=
  demoEx [("L", Except.ok "fail"), ("P", Except.ok "pass")]

/-- C9: the report's gap buckets are exactly the projections of the
failing rules — `critical` severity to `critical_gaps`, `high` to
`high_gaps`, everything else to `medium_gaps`; the total number of gaps
equals the number of `fail` verdicts (a gap exists iff a rule fails); and
a failing rule of severity `low` lands in `medium_gaps` and in neither of
the other two buckets. -/
theorem C9_gap_bucketing {α : Type}
    (ex : Rule → α → Except Unit String) (rules : List Rule) (profile : α)
    (rg sn pn ns : String) (r : ComplianceReport)
    (hr : r = evaluate ex rules profile rg sn pn ns) :
    r.criticalGaps = gapsWhere ex rules profile critTest
    ∧ r.highGaps = gapsWhere ex rules profile highTest
    ∧ r.mediumGaps = gapsWhere ex rules profile medTest
    ∧ r.criticalGaps.length + r.highGaps.length + r.mediumGaps.length
        = countVerdict r.ruleResults RuleVerdict.fail
    ∧ (∀ rule ∈ rules, rule.severity = Severity.low →
        (evaluateRule ex rule profile).verdict = RuleVerdict.fail →
          mkGap rule (evaluateRule ex rule profile) ∈ r.mediumGaps
          ∧ mkGap rule (evaluateRule ex rule profile) ∉ r.criticalGaps
          ∧ mkGap rule (evaluateRule ex rule profile) ∉ r.highGaps) := by
  subst hr
  have hc := evaluate_criticalGaps ex rules profile rg sn pn ns
  have hh := evaluate_highGaps ex rules profile rg sn pn ns
  have hm := evaluate_mediumGaps ex rules profile rg sn pn ns
  have hrr := evaluate_ruleResults ex rules profile rg sn pn ns
  refine ⟨hc, hh, hm, ?_, ?_⟩
  · rw [hc, hh, hm, hrr]
    exact gaps_length_sum ex profile rules
  · intro rule hmem hlow hfail
    have hgsev : (mkGap rule (evaluateRule ex rule profile)).severity
        = "low" := by
      show rule.severity.value = "low"
      rw [hlow]
      rfl
    refine ⟨?_, ?_, ?_⟩
    · rw [hm]
      simp only [gapsWhere, List.mem_filterMap]
      refine ⟨rule, hmem, ?_⟩
      rw [if_pos ?_]
      rw [hfail, hlow]
      rfl
    · rw [hc]
      intro habs
      have := gapsWhere_mem_sev ex rules profile critTest _ habs
      rw [hgsev] at this
      exact absurd this (by decide)
    · rw [hh]
      intro habs
      have := gapsWhere_mem_sev ex rules profile highTest _ habs
      rw [hgsev] at this
      exact absurd this (by decide)

/-- C9 witness: a failing `low`-severity rule appears in the medium
bucket and in no other bucket. -/
theorem C9_witness :
    mkGap (demoRule "L" Severity.low)
        (evaluateRule w9ex (demoRule "L" Severity.low) ())
      ∈ (evaluate w9ex w9rules () "r" "s" "p" "n").mediumGaps
    ∧ mkGap (demoRule "L" Severity.low)
        (evaluateRule w9ex (demoRule "L" Severity.low) ())
      ∉ (evaluate w9ex w9rules () "r" "s" "p" "n").criticalGaps
    ∧ mkGap (demoRule "L" Severity.low)
        (evaluateRule w9ex (demoRule "L" Severity.low) ())
      ∉ (evaluate w9ex w9rules () "r" "s" "p" "n").highGaps :=
  (C9_gap_bucketing w9ex w9rules () "r" "s" "p" "n" _ rfl).2.2.2.2
    (demoRule "L" Severity.low) (by decide) rfl (by decide)

/-! ## Claims about the audit chain -/

/-- C3: appending N ≥ 1 entries to a fresh log yields a log whose loaded
entries verify cleanly — every recomputed hash (through the timestamp's
wire-format round trip) matches the persisted `entry_hash` and every
`previous_hash` links to its predecessor. -/
theorem C3_audit_chain_roundtrip (H : String → String)
    (args : List AppendArgs) (_hne : args ≠ []) :
    verifyChain H (loadFromFile (appendMany H freshLogger args).file)
        = (true, [])
    ∧ (∀ e ∈ loadFromFile (appendMany H freshLogger args).file,
        e.entryHash = recomputeHash H e)
    ∧ (∀ (i : ℕ)
        (h : i + 1 < (loadFromFile (appendMany H freshLogger args).file).length),
        ((loadFromFile (appendMany H freshLogger args).file).get
            ⟨i + 1, h⟩).previousHash
          = ((loadFromFile (appendMany H freshLogger args).file).get
              ⟨i, Nat.lt_of_succ_lt h⟩).entryHash) := by
  have hg : GoodState H freshLogger := ⟨ValidFrom.nil _, rfl⟩
  have hg2 := appendMany_good H args freshLogger hg
  exact ⟨verifyChain_of_valid H _ hg2.1, valid_mem_hash H _ _ hg2.1,
    valid_link H _ _ hg2.1⟩

def w3args : AppendArgs :=
  { action := AuditAction.ingest, stage := "ingestion", targetIds := ["doc-1"],
    details := "{}", actor := "system", inputHash := "", outputHash := "",
    modelUsed := "", verdict := "", nowIso := "2024-01-01T00:00:00+00:00",
    newId := "id-1" }

/-- C3 witness: one append to a fresh log verifies cleanly. -/
theorem C3_witness :
    verifyChain id (loadFromFile (appendMany id freshLogger [w3args]).file)
      = (true, []) :=
  (C3_audit_chain_roundtrip id [w3args] (List.cons_ne_nil _ _)).1

/-! ## Tamper detection (C4) -/

/-- The entry at position `i` of a three-entry chain. -/
def pick3 (a b c : AuditEntry) : Fin 3 → AuditEntry
  | ⟨0, _⟩ => a
  | ⟨1, _⟩ => b
  | ⟨2, _⟩ => c
  | ⟨n + 3, h⟩ => absurd h (by omega)

/-- The three-entry chain with position `i`'s details overwritten. -/
def tamper3 (a b c : AuditEntry) (d : String) : Fin 3 → List AuditEntry
  | ⟨0, _⟩ => [setDetails a d, b, c]
  | ⟨1, _⟩ => [a, setDetails b d, c]
  | ⟨2, _⟩ => [a, b, setDetails c d]
  | ⟨n + 3, h⟩ => absurd h (by omega)

/-- The error list `verify_chain` produces for a three-entry log. -/
def errsThree (H : String → String) (x y z : AuditEntry) : List String :=
  (if x.previousHash = genesisHash then [] else [genesisMsg x])
    ++ ((if x.entryHash = recomputeHash H x then [] else [hashMismatchMsg H x])
      ++ []
      ++ ((if y.entryHash = recomputeHash H y then [] else [hashMismatchMsg H y])
        ++ (if y.previousHash = x.entryHash then [] else [chainBrokenMsg y x])
        ++ ((if z.entryHash = recomputeHash H z then [] else [hashMismatchMsg H z])
          ++ (if z.previousHash = y.entryHash then [] else [chainBrokenMsg z y])
          ++ [])))

theorem verifyChain_three (H : String → String) (x y z : AuditEntry) :
    verifyChain H [x, y, z] = ((errsThree H x y z).isEmpty, errsThree H x y z) :=
  rfl

/-- Overwriting the details of a hash-consistent entry breaks its hash
check whenever the digest is injective. -/
theorem tamper_hash_ne (H : String → String)
    (hInj : Function.Injective H) (e : AuditEntry) (d : String)
    (hh : e.entryHash = recomputeHash H e) (hne : d ≠ e.details) :
    ¬ (setDetails e d).entryHash = recomputeHash H (setDetails e d) := by
  intro habs
  have ha : e.entryHash = computeHash H e.previousHash
      (normalizeTimestamp e.timestamp) e.action.value e.targetIds d := habs
  have hb : e.entryHash = computeHash H e.previousHash
      (normalizeTimestamp e.timestamp) e.action.value e.targetIds e.details := hh
  have h1 : computeHash H e.previousHash (normalizeTimestamp e.timestamp)
      e.action.value e.targetIds e.details
      = computeHash H e.previousHash (normalizeTimestamp e.timestamp)
        e.action.value e.targetIds d := by
    rw [← hb]
    exact ha
  exact hne (computeHash_details_inj H hInj _ _ _ _ _ _ h1).symm

/-- C4: in a three-entry chain that verifies cleanly, overwriting any
single entry's `details` (without recomputing its hash) makes
`verify_chain` report exactly that entry's hash mismatch and nothing
else — no false flags on other entries and no cascade. -/
theorem C4_tamper_detection (H : String → String)
    (hInj : Function.Injective H) (a b c : AuditEntry)
    (hvalid : verifyChain H [a, b, c] = (true, []))
    (i : Fin 3) (d : String) (hne : d ≠ (pick3 a b c i).details) :
    verifyChain H (tamper3 a b c d i)
      = (false, [hashMismatchMsg H (setDetails (pick3 a b c i) d)]) := by
  have hv := valid_of_verifyChain H _ hvalid
  cases hv with
  | cons _ _ _ hpa hha hta =>
    cases hta with
    | cons _ _ _ hpb hhb htb =>
      cases htb with
      | cons _ _ _ hpc hhc _ =>
        fin_cases i
        · show verifyChain H [setDetails a d, b, c]
            = (false, [hashMismatchMsg H (setDetails a d)])
          rw [verifyChain_three, errsThree,
            if_pos (show (setDetails a d).previousHash = genesisHash from hpa),
            if_neg (tamper_hash_ne H hInj a d hha
              (show d ≠ a.details from hne)),
            if_pos hhb,
            if_pos (show b.previousHash = (setDetails a d).entryHash from hpb),
            if_pos hhc, if_pos hpc]
          rfl
        · show verifyChain H [a, setDetails b d, c]
            = (false, [hashMismatchMsg H (setDetails b d)])
          rw [verifyChain_three, errsThree, if_pos hpa, if_pos hha,
            if_neg (tamper_hash_ne H hInj b d hhb
              (show d ≠ b.details from hne)),
            if_pos (show (setDetails b d).previousHash = a.entryHash from hpb),
            if_pos hhc,
            if_pos (show c.previousHash = (setDetails b d).entryHash from hpc)]
          rfl
        · show verifyChain H [a, b, setDetails c d]
            = (false, [hashMismatchMsg H (setDetails c d)])
          rw [verifyChain_three, errsThree, if_pos hpa, if_pos hha,
            if_pos hhb, if_pos hpb,
            if_neg (tamper_hash_ne H hInj c d hhc
              (show d ≠ c.details from hne)),
            if_pos (show (setDetails c d).previousHash = b.entryHash from hpc)]
          rfl

def w4a : AuditEntry :=
  { id := "e1", timestamp := "T1", action := AuditAction.ingest,
    stage := "s1", actor := "sys", targetIds := [], inputHash := "",
    outputHash := "", previousHash := genesisHash,
    entryHash := computeHash id genesisHash "T1" "ingest" [] "{}",
    details := "{}", modelUsed := "", verdict := "" }

def w4b : AuditEntry :=
  { id := "e2", timestamp := "T2", action := AuditAction.parse,
    stage := "s2", actor := "sys", targetIds := ["t1"], inputHash := "",
    outputHash := "", previousHash := w4a.entryHash,
    entryHash := computeHash id w4a.entryHash "T2" "parse" ["t1"] "{}",
    details := "{}", modelUsed := "", verdict := "" }

def w4c : AuditEntry :=
  { id := "e3", timestamp := "T3", action := AuditAction.evaluateAct,
    stage := "s3", actor := "sys", targetIds := [], inputHash := "",
    outputHash := "", previousHash := w4b.entryHash,
    entryHash := computeHash id w4b.entryHash "T3" "evaluate" [] "{}",
    details := "{}", modelUsed := "", verdict := "" }

example : verifyChain id [w4a, w4b, w4c] = (true, []) := by decide

/-- C4 witness: overwriting the middle entry's details in a concrete valid
three-entry chain produces exactly that entry's hash-mismatch error. -/
theorem C4_witness :
    verifyChain id (tamper3 w4a w4b w4c "tampered-details" 1)
      = (false, [hashMismatchMsg id (setDetails (pick3 w4a w4b w4c 1) "tampered-details")]) :=
  C4_tamper_detection id (fun _ _ h => h) w4a w4b w4c (by decide) 1
    "tampered-details" (by decide)

/-! ## Missing log file (C5) -/

/-- C5 counterexample: the storage-backed `AuditChainVerifier.verify`
reports a not-yet-existing log as invalid with a file-not-found error,
not as valid empty history. -/
theorem C5_counterexample :
    chainVerifierVerify id Option.none = (false, [fileNotFoundMsg])
    ∧ chainVerifierVerify id Option.none ≠ (true, []) :=
  ⟨rfl, by decide⟩

/-- C5 (amended): `load_from_file` on a missing log returns the empty
list, `verify_chain` of the empty history is `(true, [])`, and the
storage-backed verifier accepts an existing empty log — but reports a
missing log file as an error `(false, [file-not-found])`. -/
theorem C5_missing_log (H : String → String) :
    loadFromFile Option.none = []
    ∧ verifyChain H (loadFromFile Option.none) = (true, [])
    ∧ chainVerifierVerify H (some []) = (true, [])
    ∧ chainVerifierVerify H Option.none = (false, [fileNotFoundMsg]) :=
  ⟨rfl, rfl, rfl, rfl⟩

/-! ## Restart continuity (C10) -/

/-- C10: a logger constructed over an existing well-formed log initializes
its previous-hash pointer to the last persisted `entry_hash` (genesis when
the file is missing or empty), and entries it appends extend the chain so
that the whole log still verifies. -/
theorem C10_restart_chain_continuity (H : String → String) (file : AuditFile)
    (hwf : verifyChain H (loadFromFile file) = (true, []))
    (args : List AppendArgs) :
    (mkLogger file).prevHash
      = (match (file.getD []).getLast? with
         | some e => e.entryHash
         | Option.none => genesisHash)
    ∧ verifyChain H (loadFromFile (appendMany H (mkLogger file) args).file)
        = (true, []) := by
  constructor
  · cases file with
    | none => rfl
    | some es => rfl
  · have hv := valid_of_verifyChain H _ hwf
    have hg := appendMany_good H args (mkLogger file) (mkLogger_good H file hv)
    exact verifyChain_of_valid H _ hg.1

def w10file : AuditFile := (appendMany id freshLogger [w3args]).file

def w10args : AppendArgs :=
  { action := AuditAction.evaluateAct, stage := "evaluation",
    targetIds := [], details := "{}", actor := "system", inputHash := "",
    outputHash := "", modelUsed := "", verdict := "compliant",
    nowIso := "2024-01-02T00:00:00+00:00", newId := "id-2" }

/-- C10 witness: a fresh logger over a concrete one-entry log appends a
second entry and the whole two-entry log still verifies. -/
theorem C10_witness :
    verifyChain id
      (loadFromFile (appendMany id (mkLogger w10file) [w10args]).file)
      = (true, []) :=
  (C10_restart_chain_continuity id w10file (by decide) [w10args]).2

end RegCoder
